import Mathlib

set_option maxRecDepth 8000

/-!
Shallow embedding of the data pipeline in `src/app/app.py` (a Dash dashboard that
joins Census tract geometry with ACS attributes and NOAA disaster statistics).

Modelling conventions:
* pandas tables are lists of records; missing values (NaN) are `none : Option ℚ`;
* external effects (the `requests.get` call to the Census API, the
  `gpd.read_file` download of the tract shapefile) are inputs of the function
  that performs them, as an `Except String` value whose `.error` case stands
  for the exception the library call would raise;
* machine floats are modelled as exact rationals: every number the pipeline
  touches is produced by `pd.to_numeric` from short decimal strings, and the
  quantile interpolation of `pd.qcut` is exact rational arithmetic.
-/

namespace CensusApp

/-! ## Numeric coercion: `pd.to_numeric(..., errors="coerce")` on strings -/

/-- Value of a big-endian list of decimal digit characters, as a rational. -/
def digitsVal (cs : List Char) : ℚ :=
  cs.foldl (fun a c => 10 * a + ((c.toNat - 48 : ℕ) : ℚ)) 0

/-- Split a character list at the first `'.'`; the second component is `none`
when no dot occurs.  Used to model decimal-point parsing: a second dot ends up
inside the fractional part and makes the digit test fail, as CPython's float
parser rejects `"1.2.3"`. -/
def splitDot : List Char → List Char × Option (List Char)
  | [] => ([], none)
  | c :: rest =>
    if c = '.' then ([], some rest)
    else
      let p := splitDot rest
      (c :: p.1, p.2)

/-- Model of `pd.to_numeric(s, errors="coerce")` on one cell: parses an optional
leading minus, an integer part and an optional fractional part; any other shape
(including the empty string, stray letters, embedded commas) coerces to NaN,
i.e. `none`.  Scientific notation is not modelled; no string this pipeline
feeds in uses it. -/
def to_numeric (s : String) : Option ℚ :=
  match s.data with
  | [] => none
  | cs =>
    let neg : Bool := cs.head? = some '-'
    let cs' := if neg then cs.tail else cs
    let p := splitDot cs'
    let v? : Option ℚ :=
      match p.2 with
      | none =>
        if p.1 ≠ [] ∧ p.1.all Char.isDigit then some (digitsVal p.1) else none
      | some f =>
        if (p.1 ++ f) ≠ [] ∧ p.1.all Char.isDigit ∧ f.all Char.isDigit then
          some (digitsVal p.1 + digitsVal f / 10 ^ f.length)
        else none
    v?.map (fun v => if neg then -v else v)

/-- `Series.astype(str).replace("[,]", "", regex=True)` : delete every comma. -/
def removeCommas (s : String) : String := ⟨s.data.filter (fun c => c ≠ ',')⟩

/-- Little-endian digit stream with a `','` emitted before every digit whose
position is a positive multiple of 3 (so that, once reversed into the usual
big-endian rendering, groups of three digits are separated by commas). -/
def commafyLE : List ℕ → ℕ → List Char
  | [], _ => []
  | d :: rest, i =>
    (if 0 < i ∧ i % 3 = 0 then [',', Nat.digitChar d] else [Nat.digitChar d]) ++
      commafyLE rest (i + 1)

/-- Modelled from the spec: `format_with_commas`, the thousands-separated
decimal rendering of a positive integer (the well-formed shape of the currency
cells in the NOAA cost feed).  The repository contains no formatter; the spec's
round-trip property quantifies over strings of this shape. -/
def format_with_commas (n : ℕ) : String :=
  ⟨(commafyLE (Nat.digits 10 n) 0).reverse⟩

/-! ## `pd.qcut(col, q, duplicates="drop", labels=False)`

pandas computes `q+1` linearly-interpolated quantile edges of the non-NaN
population, drops duplicate edges (`_bins_to_cuts` replaces the edge list by
its order-preserving uniques when it is shorter and the original list does not
have exactly 2 entries), assigns each value its left-searchsorted index among
the edges, moves values equal to the lowest edge into the first bin
(`include_lowest=True`), and marks indices `0` and `len(bins)` as NaN.  With
`duplicates="drop"` and `labels=False` none of the `ValueError` branches of
`qcut`/`_bins_to_cuts` is reachable, so the embedding is total. -/

/-- `Series.quantile` at probability `i/q` (linear interpolation) over an
ascending-sorted list `v`: with the position `h = (i/q) * (len v - 1)` written
as the natural division `(i * (len v - 1)) / q` with remainder, the result is
`v[⌊h⌋] + (h - ⌊h⌋) * (v[⌊h⌋+1] - v[⌊h⌋])`. -/
def quantileIdx (v : List ℚ) (i q : ℕ) : ℚ :=
  let t := i * (v.length - 1)
  let lo := v.getD (t / q) 0
  let hi := v.getD (t / q + 1) lo
  lo + (((t % q : ℕ) : ℚ) / (q : ℚ)) * (hi - lo)

/-- Order-preserving deduplication keeping first occurrences
(`pandas.core.algorithms.unique`). -/
def dedupFirst : List ℚ → List ℚ
  | [] => []
  | x :: xs => x :: (dedupFirst xs).filter (fun b => b ≠ x)

/-- The `q+1` quantile edges of a sorted population. -/
def qcutEdges (v : List ℚ) (q : ℕ) : List ℚ :=
  (List.range (q + 1)).map (fun i => quantileIdx v i q)

/-- The bin edges after the `duplicates="drop"` handling of `_bins_to_cuts`. -/
def qcutBins (v : List ℚ) (q : ℕ) : List ℚ :=
  let edges := qcutEdges v q
  let uniq := dedupFirst edges
  if uniq.length < edges.length ∧ edges.length ≠ 2 then uniq else edges

/-- The integer code `labels=False` assigns to a non-NaN value `x`:
left-searchsorted index among the bins (for sorted bins this is the count of
edges strictly below `x`), adjusted to `1` when `x` equals the lowest edge
(`include_lowest`), then shifted down by one; indices `0` and `len bins`
are out of range and become NaN. -/
def qcutCode (bins : List ℚ) (x : ℚ) : Option ℕ :=
  let j0 := bins.countP (fun b => decide (b < x))
  let j := if x = bins.headD 0 then 1 else j0
  if j = bins.length ∨ j = 0 then none else some (j - 1)

/-- `pd.qcut(xs, q, duplicates="drop", labels=False)`.  NaN inputs get NaN
codes; when the non-NaN population is empty every code is NaN (the edges are
all NaN and every searchsorted index collapses into the NaN mask). -/
def pd_qcut (xs : List (Option ℚ)) (q : ℕ) : List (Option ℕ) :=
  let vals := List.insertionSort (· ≤ ·) (xs.filterMap id)
  if vals.isEmpty then xs.map (fun _ => none)
  else
    let bins := qcutBins vals q
    xs.map (fun x? => x?.bind (fun x => qcutCode bins x))

/-! ## The income-classification stage (app.py lines 91-104) -/

/-- `Series.max` on a list of natural codes (pandas skips NaN; an all-NaN
column has NaN max). -/
def seriesMaxNat : List ℕ → Option ℕ
  | [] => none
  | k :: ks => some (match seriesMaxNat ks with | none => k | some m => max k m)

/-- `gdf["income_class_num"] = gdf["income_class_num"].max() - gdf["income_class_num"]`:
subtract every code from the column maximum (NaN-skipping); when the column has
no non-NaN entry the subtraction is NaN - NaN = NaN everywhere. -/
def invertCodes (c : List (Option ℕ)) : List (Option ℕ) :=
  match seriesMaxNat (c.filterMap id) with
  | none => c.map (fun _ => none)
  | some m => c.map (fun o => o.map (fun k => m - k))

/-- The classification control flow of `load_state_data`, parameterized over
the bucketer (the external `pd.qcut` call, whose exception channel is the
`.error` case): try 9 buckets and invert; on a `ValueError` retry once with 5
buckets and invert; an error of the 5-bucket call is not caught. -/
def classify_with_fallback
    (qc : ℕ → List (Option ℚ) → Except String (List (Option ℕ)))
    (xs : List (Option ℚ)) : Except String (List (Option ℕ) × List (Option ℕ)) :=
  match qc 9 xs with
  | .ok c => .ok (c, invertCodes c)
  | .error _ =>
    match qc 5 xs with
    | .ok c => .ok (c, invertCodes c)
    | .error e => .error e

/-- The actual bucketer: `pd.qcut` with `duplicates="drop"` and `labels=False`
raises no `ValueError` (see the discussion above `quantileIdx`), so the
exception channel is never used. -/
def pd_qcutE (q : ℕ) (xs : List (Option ℚ)) : Except String (List (Option ℕ)) :=
  .ok (pd_qcut xs q)

/-- Lines 91-104 applied to the income column. -/
def income_classify (xs : List (Option ℚ)) :
    Except String (List (Option ℕ) × List (Option ℕ)) :=
  classify_with_fallback pd_qcutE xs

/-! ## The Census fetch / merge pipeline: `load_state_data` (lines 57-106)

The function's two external effects are inputs:
* `fetch` is the outcome of `requests.get(url)`; its `.error` case is a raised
  network exception.  A successful response carries the HTTP status code and
  the outcome of `r.json()` (whose `.error` case is a JSON decode exception).
* `tractsRes` is the outcome of `gpd.read_file(tracts_url)`; its `.error` case
  is the exception the geometry download would raise. -/

structure HttpResp where
  status_code : ℕ
  body : Except String (List (List String))

/-- One row of the ACS attribute frame after the column renames, the
`pd.to_numeric(..., errors="coerce")` coercion of the eight requested
variables, and the `GEOID = state + county + tract` synthesis. -/
structure AttrRow where
  name : String
  state : String
  county : String
  tract : String
  Total_Population : Option ℚ
  Median_Age_by_Sex_Male : Option ℚ
  Median_Age_by_Sex_Female : Option ℚ
  Medium_Household_Income : Option ℚ
  Management_business_science_arts : Option ℚ
  Service : Option ℚ
  Natural_Resources_Construction_Maintenance : Option ℚ
  Production_Transportation_Material_Moving : Option ℚ
  GEOID : String

/-- `df[c]` for one row of `pd.DataFrame(rows, columns=header)`: value at the
first index of `c` in the header.  (`buildDf` only produces rows after
checking both the rectangular shape and the presence of every accessed
column, so the defaults never fire.) -/
def getCol (header row : List String) (c : String) : String :=
  match header.indexOf? c with
  | some i => row.getD i ""
  | none => ""

/-- The Census variable codes requested from the ACS API
(`variables.values()` in source order). -/
def variableCodes : List String :=
  ["B01003_001E", "B01002_002E", "B01002_003E", "B19013_001E",
   "C24050_002E", "C24050_003E", "C24050_005E", "C24050_006E"]

/-- One attribute row built from a JSON data row: the rename
`{code: friendly_name}` makes reading the friendly column equal to reading the
original code column. -/
def mkAttrRow (header row : List String) : AttrRow :=
  let st := getCol header row "state"
  let cty := getCol header row "county"
  let trt := getCol header row "tract"
  { name := getCol header row "NAME"
    state := st
    county := cty
    tract := trt
    Total_Population := to_numeric (getCol header row "B01003_001E")
    Median_Age_by_Sex_Male := to_numeric (getCol header row "B01002_002E")
    Median_Age_by_Sex_Female := to_numeric (getCol header row "B01002_003E")
    Medium_Household_Income := to_numeric (getCol header row "B19013_001E")
    Management_business_science_arts := to_numeric (getCol header row "C24050_002E")
    Service := to_numeric (getCol header row "C24050_003E")
    Natural_Resources_Construction_Maintenance := to_numeric (getCol header row "C24050_005E")
    Production_Transportation_Material_Moving := to_numeric (getCol header row "C24050_006E")
    GEOID := st ++ cty ++ trt }

/-- `pd.DataFrame(r.json()[1:], columns=r.json()[0])` followed by the renames,
the numeric coercion and the GEOID synthesis (lines 70-76).  A non-rectangular
payload raises in the DataFrame constructor; a payload missing one of the
accessed columns raises `KeyError` at `df[numerical_cols]` or at
`df["state"] + df["county"] + df["tract"]`.  Neither raise is caught by
`load_state_data`. -/
def buildDf (rows : List (List String)) : Except String (List AttrRow) :=
  match rows with
  | [] => .error "ValueError: empty payload"
  | header :: dataRows =>
    if dataRows.any (fun r => r.length ≠ header.length) then
      .error "ValueError: data does not match columns"
    else if (variableCodes ++ ["state", "county", "tract"]).any
        (fun c => ! header.contains c) then
      .error "KeyError"
    else
      .ok (dataRows.map (mkAttrRow header))

/-- One row of the TIGER tract shapefile (after `tracts["GEOID"].astype(str)`;
only the join key and the name payload matter to the pipeline). -/
structure Tract where
  GEOID : String
  name : String

/-- A row of `tracts.merge(df, on="GEOID", how="inner")`. -/
structure MergedRow where
  tract : Tract
  attr : AttrRow

/-- pandas inner merge on `GEOID`: for each left (tract) row in order, one
output row per matching right (attribute) row. -/
def innerMergeOnGEOID (tracts : List Tract) (df : List AttrRow) : List MergedRow :=
  tracts.flatMap (fun t => (df.filter (fun a => a.GEOID == t.GEOID)).map (fun a => ⟨t, a⟩))

/-- A merged row with the two classification columns appended. -/
structure ClassifiedRow where
  row : MergedRow
  income_class : Option ℕ
  income_class_num : Option ℕ

/-- Assigning the two class columns back onto the frame row-by-row. -/
def zipClasses : List MergedRow → List (Option ℕ) → List (Option ℕ) → List ClassifiedRow
  | r :: rs, a :: cs, b :: ns => ⟨r, a, b⟩ :: zipClasses rs cs ns
  | _, _, _ => []

/-- Lines 91-104 applied to the merged frame: classify the
`Medium_Household_Income` column and append both class columns. -/
def income_class_stage (rows : List MergedRow) : Except String (List ClassifiedRow) :=
  match income_classify (rows.map (fun r => r.attr.Medium_Household_Income)) with
  | .ok p => .ok (zipClasses rows p.1 p.2)
  | .error e => .error e

/-- `load_state_data(state_fips)` (lines 57-106).  Returns `.ok []` for the
empty `gpd.GeoDataFrame()` sentinel; `.error` is an uncaught exception
escaping the function.  Control flow from source: the status/empty check
short-circuits (a non-200 response never has its body decoded); only
`gpd.read_file` sits inside a `try/except`. -/
def load_state_data (state_fips : String) (fetch : Except String HttpResp)
    (tractsRes : Except String (List Tract)) : Except String (List ClassifiedRow) :=
  match fetch with
  | .error e => .error e
  | .ok r =>
    if r.status_code ≠ 200 then .ok []
    else
      match r.body with
      | .error e => .error e
      | .ok rows =>
        if rows.isEmpty then .ok []
        else
          match buildDf rows with
          | .error e => .error e
          | .ok df =>
            match tractsRes with
            | .error _ => .ok []
            | .ok tracts =>
              let gdf := innerMergeOnGEOID tracts df
              let gdf' := gdf.filter (fun m => m.attr.Medium_Household_Income.isSome)
              income_class_stage gdf'

/-! ## The disaster aggregation pipelines (lines 108-174)

Both NOAA feeds are wide tables (one column per disaster category).  The
frequency table is read with numeric cells; the cost table's cells are
thousands-separated currency strings (`astype(str)` stringifies them before
the comma strip). -/

/-- The `value_vars` of both `melt` calls, in source order. -/
def disasterCats : List String :=
  ["drought", "flooding", "freeze", "severe storm",
   "tropical cyclone", "wildfire", "winter storm"]

/-- A wide row of `state-freq-data.csv` after the header normalisation and
`pd.to_numeric(df_freq["Year"])`. -/
structure FreqWideRow where
  Year : ℤ
  State_Abbr : String
  drought : Option ℚ
  flooding : Option ℚ
  freeze : Option ℚ
  severe_storm : Option ℚ
  tropical_cyclone : Option ℚ
  wildfire : Option ℚ
  winter_storm : Option ℚ

/-- The cell of a wide frequency row in a given category column. -/
def FreqWideRow.value (r : FreqWideRow) : String → Option ℚ
  | "drought" => r.drought
  | "flooding" => r.flooding
  | "freeze" => r.freeze
  | "severe storm" => r.severe_storm
  | "tropical cyclone" => r.tropical_cyclone
  | "wildfire" => r.wildfire
  | "winter storm" => r.winter_storm
  | _ => none

/-- A long row produced by the frequency `melt`. -/
structure FreqLongRow where
  Year : ℤ
  State_Abbr : String
  Disaster_Type : String
  Frequency : Option ℚ

/-- `df_freq.melt(id_vars=["Year", "State_Abbr"], value_vars=..., ...)`:
pandas stacks the value columns one after the other. -/
def meltFreq (rows : List FreqWideRow) : List FreqLongRow :=
  disasterCats.flatMap (fun c => rows.map (fun r => ⟨r.Year, r.State_Abbr, c, r.value c⟩))

/-- A row of `df_state_lookup` (`GEOID`, `STUSPS`-renamed-to-`State_Abbr`). -/
structure StateLookupRow where
  GEOID : String
  State_Abbr : String

/-- pandas left merge on a string key: every left row is retained; a left row
with no key match gets a single null-filled output row, one with matches gets
one output row per match, in left-key order. -/
def leftMergeKey {α β : Type} (kl : α → String) (kr : β → String)
    (L : List α) (R : List β) : List (α × Option β) :=
  L.flatMap (fun l =>
    match R.filter (fun r => kr r == kl l) with
    | [] => [(l, none)]
    | ms => ms.map (fun m => (l, some m)))

/-- A melted frequency row joined with the state lookup
(`GEOID` renamed to `State_FIPS`; unmatched rows carry NaN). -/
structure FreqMergedRow where
  Year : ℤ
  State_Abbr : String
  Disaster_Type : String
  Frequency : Option ℚ
  State_FIPS : Option String

/-- The frequency join step (lines 129-134). -/
def mergeFreqLookup (long : List FreqLongRow) (lookup : List StateLookupRow) :
    List FreqMergedRow :=
  (leftMergeKey (fun l => l.State_Abbr) (fun s => s.State_Abbr) long lookup).map
    (fun p => ⟨p.1.Year, p.1.State_Abbr, p.1.Disaster_Type, p.1.Frequency,
      p.2.map (fun s => s.GEOID)⟩)

/-- `DISASTER_FREQ_DF` (lines 122-138): melt, left-merge the FIPS lookup, keep
strictly positive frequencies (a NaN comparison is false, so NaN rows drop
too), drop rows with no `State_FIPS`; the final `pd.to_numeric` re-coercion of
an already numeric column is the identity. -/
def DISASTER_FREQ_DF (wide : List FreqWideRow) (lookup : List StateLookupRow) :
    List FreqMergedRow :=
  let merged := mergeFreqLookup (meltFreq wide) lookup
  let pos := merged.filter (fun r =>
    match r.Frequency with | some v => decide (0 < v) | none => false)
  pos.filter (fun r => r.State_FIPS.isSome)

/-- A wide row of `state-cost-data.csv` after `astype(str)`: each category
cell is the string form of the cell (a thousands-separated amount, or `"nan"`
for a missing cell — both paths end in `Option ℚ` after the coercion). -/
structure CostWideRow where
  State_Abbr : String
  drought : String
  flooding : String
  freeze : String
  severe_storm : String
  tropical_cyclone : String
  wildfire : String
  winter_storm : String

/-- The cell of a wide cost row in a given category column. -/
def CostWideRow.value (r : CostWideRow) : String → String
  | "drought" => r.drought
  | "flooding" => r.flooding
  | "freeze" => r.freeze
  | "severe storm" => r.severe_storm
  | "tropical cyclone" => r.tropical_cyclone
  | "wildfire" => r.wildfire
  | "winter storm" => r.winter_storm
  | _ => ""

/-- A long row produced by the cost `melt` (cell still raw). -/
structure CostLongRow where
  State_Abbr : String
  Disaster_Type : String
  raw_cost : String

/-- `df_cost.melt(id_vars=["State_Abbr"], value_vars=..., ...)`. -/
def meltCost (rows : List CostWideRow) : List CostLongRow :=
  disasterCats.flatMap (fun c => rows.map (fun r => ⟨r.State_Abbr, c, r.value c⟩))

/-- A melted cost row joined with the state lookup and coerced. -/
structure CostMergedRow where
  State_Abbr : String
  Disaster_Type : String
  Total_Cost_Millions : Option ℚ
  State_FIPS : Option String

/-- `DISASTER_COST_DF` (lines 151-174): melt, left-merge the FIPS lookup,
strip commas and coerce the cost column, drop rows missing `State_FIPS` or
`Total_Cost_Millions`, keep strictly positive costs. -/
def DISASTER_COST_DF (wide : List CostWideRow) (lookup : List StateLookupRow) :
    List CostMergedRow :=
  let merged := (leftMergeKey (fun l : CostLongRow => l.State_Abbr)
      (fun s => s.State_Abbr) (meltCost wide) lookup).map
    (fun p => (⟨p.1.State_Abbr, p.1.Disaster_Type,
      to_numeric (removeCommas p.1.raw_cost), p.2.map (fun s => s.GEOID)⟩ : CostMergedRow))
  let kept := merged.filter (fun r => r.State_FIPS.isSome && r.Total_Cost_Millions.isSome)
  kept.filter (fun r =>
    match r.Total_Cost_Millions with | some v => decide (0 < v) | none => false)

/-! ## The state-geometry table and the chart callbacks (lines 21-39, 251-375) -/

/-- A row of `df_states` (state shapefile with precomputed centroid). -/
structure StateRow where
  GEOID : String
  STUSPS : String
  name : String
  center_lat : ℚ
  center_lon : ℚ

/-- `df_states[df_states["GEOID"] == state_fips].iloc[0]`, made total:
`iloc[0]` on an empty selection raises `IndexError`, which is the `none`
case here. -/
def firstRowByGEOID (states : List StateRow) (fips : String) : Option StateRow :=
  (states.filter (fun s => s.GEOID == fips)).head?

/-- `update_frequency_scatter` (lines 310-342): filter the frequency table by
`State_FIPS`, look up the state row by GEOID (unguarded `iloc[0]`), and build
the figure from the filtered frame and the state name.  The figure is
abstracted as its data inputs; `none` is the `IndexError` of the lookup. -/
def update_frequency_scatter (states : List StateRow) (freq : List FreqMergedRow)
    (state_fips : String) : Option (List FreqMergedRow × String) :=
  let df := freq.filter (fun r => r.State_FIPS == some state_fips)
  (firstRowByGEOID states state_fips).map (fun s => (df, s.name))

/-! ## Concrete fixtures and claim-level predicates -/

/-- The header row of a Census ACS response for the variables requested. -/
def acsHeader : List String :=
  ["NAME", "B01003_001E", "B01002_002E", "B01002_003E", "B19013_001E",
   "C24050_002E", "C24050_003E", "C24050_005E", "C24050_006E",
   "state", "county", "tract"]

/-- Scenario payload: attribute records for tracts A and C only, with incomes
10000 and 200000. -/
def c6json : List (List String) :=
  [acsHeader,
   ["Tract A", "3000", "", "", "10000", "", "", "", "", "51", "001", "000100"],
   ["Tract C", "4000", "", "", "200000", "", "", "", "", "51", "001", "000300"]]

/-- Scenario geometry: tracts A, B, C. -/
def c6tracts : List Tract :=
  [⟨"51001000100", "A"⟩, ⟨"51001000200", "B"⟩, ⟨"51001000300", "C"⟩]

/-- The attribute row the scenario builds for tract A. -/
def c6attrA : AttrRow :=
  ⟨"Tract A", "51", "001", "000100", some 3000, none, none, some 10000,
   none, none, none, none, "51001000100"⟩

/-- The attribute row the scenario builds for tract C. -/
def c6attrC : AttrRow :=
  ⟨"Tract C", "51", "001", "000300", some 4000, none, none, some 200000,
   none, none, none, none, "51001000300"⟩

/-- The merged row for tract A. -/
def c6mergedA : MergedRow := ⟨⟨"51001000100", "A"⟩, c6attrA⟩

/-- The merged row for tract C. -/
def c6mergedC : MergedRow := ⟨⟨"51001000300", "C"⟩, c6attrC⟩

/-- The scenario output: tracts A and C joined, B absent; with two distinct
incomes and nine requested buckets the edges are all distinct, the lower
income sits in raw bucket 0 (inverted 8) and the higher in raw bucket 8
(inverted 0). -/
def c6out : List ClassifiedRow :=
  [⟨c6mergedA, some 0, some 8⟩, ⟨c6mergedC, some 8, some 0⟩]

/-- A merged row carrying only an income value (all other fields inert). -/
def mkTestRow (v : Option ℚ) : MergedRow :=
  ⟨⟨"00000000000", "tract"⟩,
   ⟨"", "", "", "", none, none, none, v, none, none, none, none, "00000000000"⟩⟩

/-- A population of nine records at income 0 and one at income 1: its ten
quantile edges collapse to the two values, every record lands in raw bucket 0,
and the whole table shares inverted bucket 0. -/
def c4rows : List MergedRow :=
  [mkTestRow (some 0), mkTestRow (some 0), mkTestRow (some 0), mkTestRow (some 0),
   mkTestRow (some 0), mkTestRow (some 0), mkTestRow (some 0), mkTestRow (some 0),
   mkTestRow (some 0), mkTestRow (some 1)]

/-- The classification output on `c4rows`: a single collapsed bucket. -/
def c4out : List ClassifiedRow :=
  [⟨mkTestRow (some 0), some 0, some 0⟩, ⟨mkTestRow (some 0), some 0, some 0⟩,
   ⟨mkTestRow (some 0), some 0, some 0⟩, ⟨mkTestRow (some 0), some 0, some 0⟩,
   ⟨mkTestRow (some 0), some 0, some 0⟩, ⟨mkTestRow (some 0), some 0, some 0⟩,
   ⟨mkTestRow (some 0), some 0, some 0⟩, ⟨mkTestRow (some 0), some 0, some 0⟩,
   ⟨mkTestRow (some 0), some 0, some 0⟩, ⟨mkTestRow (some 1), some 0, some 0⟩]

/-- `r` carries the largest inverted bucket index attained in `out`. -/
def hasTopBucketNum (out : List ClassifiedRow) (r : ClassifiedRow) (M : ℕ) : Prop :=
  r.income_class_num = some M ∧
    ∀ r' ∈ out, ∀ k, r'.income_class_num = some k → k ≤ M

/-- The claim's inversion-correctness property of a classified table: a record
of inverted bucket 0 has value ≥ the value of any record carrying the largest
inverted bucket index. -/
def bucketInversionOK (out : List ClassifiedRow) : Prop :=
  ∀ r1 ∈ out, ∀ r2 ∈ out, ∀ (M : ℕ) (v1 v2 : ℚ),
    r1.income_class_num = some 0 → hasTopBucketNum out r2 M →
    r1.row.attr.Medium_Household_Income = some v1 →
    r2.row.attr.Medium_Household_Income = some v2 →
    v2 ≤ v1

/-- A frequency wide row whose only entry is `wildfire = -1` (the spec's
scenario; its misspelt category name "wildfier" cannot survive `melt`, whose
`value_vars` are fixed, so the scenario is keyed by the wildfire column). -/
def c7wide : List FreqWideRow :=
  [⟨2020, "VA", none, none, none, none, none, some (-1), none⟩]

/-- A frequency wide row with a positive wildfire count. -/
def c7wideP : List FreqWideRow :=
  [⟨2020, "VA", none, none, none, none, none, some 3, none⟩]

/-- A one-state FIPS lookup table. -/
def c7lookup : List StateLookupRow := [⟨"51", "VA"⟩]

/-! ## Structural lemmas about the pipeline -/

/-- The 9-bucket call of the embedded `pd.qcut` never raises, so the
classification stage always succeeds with the 9-bucket codes and their
inversion. -/
theorem income_classify_eq (xs : List (Option ℚ)) :
    income_classify xs = .ok (pd_qcut xs 9, invertCodes (pd_qcut xs 9)) := rfl

/-- The classification stage always succeeds and zips the 9-bucket codes onto
the frame. -/
theorem income_class_stage_eq (rows : List MergedRow) :
    income_class_stage rows =
      .ok (zipClasses rows
        (pd_qcut (rows.map (fun r => r.attr.Medium_Household_Income)) 9)
        (invertCodes (pd_qcut (rows.map (fun r => r.attr.Medium_Household_Income)) 9))) := rfl

/-- Every classified row's underlying row is a row of the input frame. -/
theorem mem_zipClasses_row (rows : List MergedRow) :
    ∀ (c cn : List (Option ℕ)) (x : ClassifiedRow),
      x ∈ zipClasses rows c cn → x.row ∈ rows := by
  induction rows with
  | nil => intro c cn x hx; cases c <;> cases cn <;> simp [zipClasses] at hx
  | cons r rs ih =>
    intro c cn x hx
    cases c with
    | nil => simp [zipClasses] at hx
    | cons a cs =>
      cases cn with
      | nil => simp [zipClasses] at hx
      | cons b ns =>
        simp only [zipClasses, List.mem_cons] at hx
        rcases hx with h | h
        · subst h; exact List.mem_cons_self _ _
        · exact List.mem_cons_of_mem _ (ih cs ns x h)

/-- A row of the inner merge pairs a tract with an attribute row sharing its
GEOID. -/
theorem mem_innerMerge (ts : List Tract) (df : List AttrRow) (m : MergedRow) :
    m ∈ innerMergeOnGEOID ts df → m.tract ∈ ts ∧ m.attr.GEOID = m.tract.GEOID := by
  intro hm
  simp only [innerMergeOnGEOID, List.mem_flatMap, List.mem_map, List.mem_filter] at hm
  obtain ⟨t, ht, a, ⟨ha, hkey⟩, rfl⟩ := hm
  exact ⟨ht, by simpa using hkey⟩

/-- Every row a successful `load_state_data` returns survived the income
dropna and descends from a fetched tract carrying the same GEOID. -/
theorem load_ok_member (fips : String) (fetch : Except String HttpResp)
    (ts : List Tract) (out : List ClassifiedRow)
    (h : load_state_data fips fetch (.ok ts) = .ok out) :
    ∀ r ∈ out, r.row.attr.Medium_Household_Income.isSome = true ∧
      r.row.tract ∈ ts ∧ r.row.attr.GEOID = r.row.tract.GEOID := by
  cases fetch with
  | error e => simp [load_state_data] at h
  | ok resp =>
    simp only [load_state_data] at h
    split at h
    · obtain rfl : ([] : List ClassifiedRow) = out := by simpa using h
      intro r hr; simp at hr
    · split at h
      · simp at h
      · split at h
        · obtain rfl : ([] : List ClassifiedRow) = out := by simpa using h
          intro r hr; simp at hr
        · split at h
          · simp at h
          · rw [income_class_stage_eq] at h
            obtain rfl := (Except.ok.injEq _ _).mp h
            intro r hr
            have hrow := mem_zipClasses_row _ _ _ _ hr
            rw [List.mem_filter] at hrow
            have hmerge := mem_innerMerge _ _ _ hrow.1
            exact ⟨hrow.2, hmerge.1, hmerge.2⟩

/-! ## Concrete evaluations, staged to keep each kernel reduction shallow -/

/-- Sorting the scenario's two incomes. -/
theorem c6_sort :
    List.insertionSort (· ≤ ·) ([some (10000 : ℚ), some 200000].filterMap id) =
      [10000, 200000] := by with_unfolding_all rfl

/-- On two distinct incomes all ten quantile edges are distinct, so the
`duplicates="drop"` step keeps them all. -/
theorem c6_bins :
    qcutBins [(10000 : ℚ), 200000] 9 = qcutEdges [10000, 200000] 9 := by
  with_unfolding_all rfl

/-- The lowest edge of the scenario's bins. -/
theorem c6_binsHead : (qcutEdges [(10000 : ℚ), 200000] 9).headD 0 = 10000 := by
  with_unfolding_all rfl

/-- The scenario's bin count. -/
theorem c6_binsLen : (qcutEdges [(10000 : ℚ), 200000] 9).length = 10 := by
  with_unfolding_all rfl

/-- No edge lies strictly below the scenario's lower income. -/
theorem c6_countA :
    (qcutEdges [(10000 : ℚ), 200000] 9).countP (fun b => decide (b < 10000)) = 0 := by
  with_unfolding_all rfl

/-- Nine edges lie strictly below the scenario's higher income. -/
theorem c6_countC :
    (qcutEdges [(10000 : ℚ), 200000] 9).countP (fun b => decide (b < 200000)) = 9 := by
  with_unfolding_all rfl

/-- The lower income is pinned into the first bucket by `include_lowest`. -/
theorem c6_codeA : qcutCode (qcutEdges [(10000 : ℚ), 200000] 9) 10000 = some 0 := by
  simp only [qcutCode, c6_binsHead, c6_binsLen, c6_countA]
  norm_num

/-- The higher income lands in the ninth bucket (code 8). -/
theorem c6_codeC : qcutCode (qcutEdges [(10000 : ℚ), 200000] 9) 200000 = some 8 := by
  simp only [qcutCode, c6_binsHead, c6_binsLen, c6_countC]
  norm_num

/-- `pd.qcut` on the scenario's income column. -/
theorem c6_qcut : pd_qcut [some 10000, some 200000] 9 = [some 0, some 8] := by
  simp only [pd_qcut, c6_sort, c6_bins]
  norm_num [c6_codeA, c6_codeC]

/-- The classification stage on the scenario's merged rows. -/
theorem c6_stage :
    income_class_stage [c6mergedA, c6mergedC] = .ok c6out := by
  rw [income_class_stage_eq]
  have hmap : [c6mergedA, c6mergedC].map (fun r => r.attr.Medium_Household_Income) =
      [some 10000, some 200000] := rfl
  rw [hmap, c6_qcut]
  with_unfolding_all rfl

/-- The attribute frame the scenario payload builds. -/
theorem c6_build : buildDf c6json = .ok [c6attrA, c6attrC] := by
  with_unfolding_all rfl

/-- Inner-merging the scenario's three tracts with its two attribute rows and
dropping null incomes keeps exactly A and C. -/
theorem c6_prefilter :
    (innerMergeOnGEOID c6tracts [c6attrA, c6attrC]).filter
      (fun m => m.attr.Medium_Household_Income.isSome) = [c6mergedA, c6mergedC] := by
  with_unfolding_all rfl

/-- End-to-end scenario evaluation of `load_state_data`. -/
theorem c6_scenario_eval :
    load_state_data "51" (.ok ⟨200, .ok c6json⟩) (.ok c6tracts) = .ok c6out := by
  simp only [load_state_data, c6_build]
  norm_num [c6json, c6_prefilter, c6_stage]

/-! ## C3: classifier retry semantics -/

/-- C3: when the 9-bucket quantile classification raises a data error, the
classifier retries exactly once with 5 buckets, and the outcome of that retry
— its bucket codes with their inversion on success, its unhandled error on
failure — is the outcome of the stage; no second fallback exists. -/
theorem c3_classifier_single_fallback
    (qc : ℕ → List (Option ℚ) → Except String (List (Option ℕ)))
    (xs : List (Option ℚ)) (e : String) (h9 : qc 9 xs = .error e) :
    classify_with_fallback qc xs =
      Except.map (fun c => (c, invertCodes c)) (qc 5 xs) := by
  unfold classify_with_fallback
  rw [h9]
  cases h5 : qc 5 xs <;> simp [Except.map]

/-- Witness for C3 at a concrete always-failing bucketer: the 5-bucket error
is what the stage returns. -/
theorem c3_classifier_single_fallback_witness :
    classify_with_fallback
        (fun q _ => .error (if q = 9 then "nine" else "five")) [] =
      Except.map (fun c => (c, invertCodes c))
        ((fun (q : ℕ) (_ : List (Option ℚ)) =>
          (.error (if q = 9 then "nine" else "five") :
            Except String (List (Option ℕ)))) 5 []) :=
  c3_classifier_single_fallback _ [] "nine" rfl

/-! ## C10: the callbacks' unguarded state-row lookup -/

/-- C10: the chart callbacks take `iloc[0]` of the geometry table filtered by
the selected FIPS without an emptiness guard; for a FIPS absent from the
geometry table the lookup is undefined (the `none` branch of the total
embedding is reached), and whenever the FIPS occurs in the table's GEOID
column the lookup — and hence the callback — succeeds. -/
theorem c10_callback_lookup (states : List StateRow) (freq : List FreqMergedRow)
    (fips : String) :
    (fips ∉ states.map StateRow.GEOID →
      update_frequency_scatter states freq fips = none) ∧
    (fips ∈ states.map StateRow.GEOID →
      (update_frequency_scatter states freq fips).isSome = true) := by
  constructor
  · intro h
    have hfilter : states.filter (fun s => s.GEOID == fips) = [] := by
      rw [List.filter_eq_nil_iff]
      intro s hs hbeq
      exact h (List.mem_map.mpr ⟨s, hs, by simpa using hbeq⟩)
    simp [update_frequency_scatter, firstRowByGEOID, hfilter]
  · intro h
    obtain ⟨s, hs, rfl⟩ := List.mem_map.mp h
    have : s ∈ states.filter (fun s' => s'.GEOID == s.GEOID) :=
      List.mem_filter.mpr ⟨hs, by simp⟩
    simp only [update_frequency_scatter, firstRowByGEOID]
    cases hf : states.filter (fun s' => s'.GEOID == s.GEOID) with
    | nil => rw [hf] at this; simp at this
    | cons a l => simp [hf]

/-- Witness for C10: with a one-state geometry table, the lookup fails on an
absent FIPS and succeeds on the present one. -/
theorem c10_callback_lookup_witness :
    (update_frequency_scatter [⟨"51", "VA", "Virginia", 0, 0⟩] [] "06" = none) ∧
    (update_frequency_scatter [⟨"51", "VA", "Virginia", 0, 0⟩] [] "51").isSome = true :=
  ⟨(c10_callback_lookup [⟨"51", "VA", "Virginia", 0, 0⟩] [] "06").1 (by simp),
   (c10_callback_lookup [⟨"51", "VA", "Virginia", 0, 0⟩] [] "51").2 (by simp)⟩

/-! ## C5: left-join retention in the disaster pipelines -/

/-- C5: both disaster joins are left joins on the state abbreviation: a melted
statistics row with no matching lookup key is retained in the joined table
with a null `State_FIPS` rather than dropped. -/
theorem c5_left_join_retention (lookup : List StateLookupRow) :
    (∀ (long : List FreqLongRow), ∀ l ∈ long,
      (∀ s ∈ lookup, s.State_Abbr ≠ l.State_Abbr) →
      (⟨l.Year, l.State_Abbr, l.Disaster_Type, l.Frequency, none⟩ : FreqMergedRow) ∈
        mergeFreqLookup long lookup) ∧
    (∀ (long : List CostLongRow), ∀ l ∈ long,
      (∀ s ∈ lookup, s.State_Abbr ≠ l.State_Abbr) →
      (l, (none : Option StateLookupRow)) ∈
        leftMergeKey (fun l' => l'.State_Abbr) (fun s => s.State_Abbr) long lookup) := by
  have key : ∀ {α : Type} (kl : α → String) (long : List α), ∀ l ∈ long,
      (∀ s ∈ lookup, s.State_Abbr ≠ kl l) →
      (l, (none : Option StateLookupRow)) ∈
        leftMergeKey kl (fun s => s.State_Abbr) long lookup := by
    intro α kl long l hl hno
    have hfilter : lookup.filter (fun r => r.State_Abbr == kl l) = [] := by
      rw [List.filter_eq_nil_iff]
      intro s hs hbeq
      exact hno s hs (by simpa using hbeq)
    unfold leftMergeKey
    rw [List.mem_flatMap]
    exact ⟨l, hl, by rw [hfilter]; simp⟩
  constructor
  · intro long l hl hno
    unfold mergeFreqLookup
    rw [List.mem_map]
    exact ⟨(l, none), key (fun l' => l'.State_Abbr) long l hl hno, rfl⟩
  · intro long l hl hno
    exact key (fun l' => l'.State_Abbr) long l hl hno

/-- Witness for C5: a Guam row has no entry in a Virginia-only lookup and
survives both joins null-filled. -/
theorem c5_left_join_retention_witness :
    ((⟨1990, "GU", "drought", some 1, none⟩ : FreqMergedRow) ∈
      mergeFreqLookup [⟨1990, "GU", "drought", some 1⟩] c7lookup) ∧
    ((⟨"GU", "drought", "12"⟩, (none : Option StateLookupRow)) ∈
      leftMergeKey (fun l : CostLongRow => l.State_Abbr) (fun s => s.State_Abbr)
        [⟨"GU", "drought", "12"⟩] c7lookup) :=
  ⟨(c5_left_join_retention c7lookup).1 _ _ (List.mem_cons_self _ _)
      (by intro s hs; simp [c7lookup] at hs; simp [hs]),
   (c5_left_join_retention c7lookup).2 _ _ (List.mem_cons_self _ _)
      (by intro s hs; simp [c7lookup] at hs; simp [hs])⟩

/-! ## C2: exception behaviour of the Attribute Fetcher -/

/-- C2 counterexample: a network exception raised by `requests.get` inside
`load_state_data` is not caught — the function propagates it instead of
returning the empty sentinel, refuting "never propagates an exception from
remote fetching". -/
theorem c2_fetch_exception_propagates :
    load_state_data "51" (.error "ConnectionError") (.ok []) =
      .error "ConnectionError" := rfl

/-- C2 amended: the status/empty-payload validation returns the empty sentinel
without raising, and an exception of the tract-geometry download is caught
with the empty sentinel returned; but only that download is guarded — an
exception of the attribute GET itself propagates (see the counterexample). -/
theorem c2_fetch_error_handling (fips : String) (resp : HttpResp)
    (t : Except String (List Tract)) (rows : List (List String))
    (df : List AttrRow) (e : String) :
    (resp.status_code ≠ 200 → load_state_data fips (.ok resp) t = .ok []) ∧
    (load_state_data fips (.ok ⟨200, .ok []⟩) t = .ok []) ∧
    (rows ≠ [] → buildDf rows = .ok df →
      load_state_data fips (.ok ⟨200, .ok rows⟩) (.error e) = .ok []) := by
  refine ⟨fun h => ?_, rfl, fun hrows hdf => ?_⟩
  · simp [load_state_data, h]
  · simp [load_state_data, List.isEmpty_iff, hrows, hdf]

/-- Witness for C2's amended statement at concrete inputs: a 404 response, an
empty payload, and a failing geometry download all yield the empty sentinel. -/
theorem c2_fetch_error_handling_witness :
    (load_state_data "51" (.ok ⟨404, .ok []⟩) (.ok []) = .ok []) ∧
    (load_state_data "51" (.ok ⟨200, .ok []⟩) (.ok []) = .ok []) ∧
    (load_state_data "51" (.ok ⟨200, .ok [acsHeader]⟩) (.error "HTTPError") = .ok []) :=
  ⟨(c2_fetch_error_handling "51" ⟨404, .ok []⟩ (.ok []) [acsHeader] [] "x").1 (by decide),
   (c2_fetch_error_handling "51" ⟨404, .ok []⟩ (.ok []) [acsHeader] [] "x").2.1,
   (c2_fetch_error_handling "51" ⟨404, .ok []⟩ (.ok []) [acsHeader] [] "HTTPError").2.2
     (by simp) (by rfl)⟩

/-! ## C1 and C6: join-key and dropna invariants of `load_state_data` -/

/-- When the tract-geometry download fails, `load_state_data` returns the
empty sentinel on every path that returns at all. -/
theorem load_tracts_error (fips : String) (fetch : Except String HttpResp)
    (e : String) (out : List ClassifiedRow)
    (h : load_state_data fips fetch (.error e) = .ok out) : out = [] := by
  cases fetch with
  | error e' => simp [load_state_data] at h
  | ok resp =>
    simp only [load_state_data] at h
    split at h
    · simpa using h.symm
    · split at h
      · simp at h
      · split at h
        · simpa using h.symm
        · split at h
          · simp at h
          · simpa using h.symm

/-- C1: for every state (whatever the fetch outcome), a successful
`load_state_data` returns either the empty sentinel or a table in which every
row's synthesized GEOID join key occurs among the GEOIDs of the tract geometry
fetched for that state — the merge is an inner join on GEOID. -/
theorem c1_join_key_in_geometry (fips : String) (fetch : Except String HttpResp)
    (ts : List Tract) (out : List ClassifiedRow)
    (h : load_state_data fips fetch (.ok ts) = .ok out) :
    out = [] ∨ ∀ r ∈ out, r.row.attr.GEOID ∈ ts.map Tract.GEOID := by
  right
  intro r hr
  obtain ⟨-, ht, hk⟩ := load_ok_member fips fetch ts out h r hr
  rw [hk]
  exact List.mem_map_of_mem _ ht

/-- Witness for C1 on the concrete A/B/C scenario data. -/
theorem c1_join_key_in_geometry_witness :
    c6out = [] ∨ ∀ r ∈ c6out, r.row.attr.GEOID ∈ c6tracts.map Tract.GEOID :=
  c1_join_key_in_geometry "51" (.ok ⟨200, .ok c6json⟩) c6tracts c6out c6_scenario_eval

/-- C6: after the inner join, rows with a null `Medium_Household_Income` are
dropped — every returned row has a non-null classification value — and on the
concrete scenario (geometry {A,B,C}, attributes for {A,C} with incomes 10000
and 200000) the pipeline returns exactly the two joined records A and C, with
B absent. -/
theorem c6_inner_join_dropna :
    (∀ (fips : String) (fetch : Except String HttpResp)
      (tr : Except String (List Tract)) (out : List ClassifiedRow),
      load_state_data fips fetch tr = .ok out →
      ∀ r ∈ out, r.row.attr.Medium_Household_Income.isSome = true) ∧
    (load_state_data "51" (.ok ⟨200, .ok c6json⟩) (.ok c6tracts) = .ok c6out ∧
      c6out.map (fun r => r.row.tract.GEOID) = ["51001000100", "51001000300"]) := by
  refine ⟨?_, c6_scenario_eval, rfl⟩
  intro fips fetch tr out h r hr
  cases tr with
  | error e => rw [load_tracts_error fips fetch e out h] at hr; simp at hr
  | ok ts => exact (load_ok_member fips fetch ts out h r hr).1

/-- Witness for C6's quantified conjunct at the concrete scenario. -/
theorem c6_inner_join_dropna_witness :
    ∀ r ∈ c6out, r.row.attr.Medium_Household_Income.isSome = true :=
  c6_inner_join_dropna.1 "51" (.ok ⟨200, .ok c6json⟩) (.ok c6tracts) c6out
    c6_scenario_eval

/-! ## C7: non-positive and missing metric rows are excluded -/

/-- C7: every row of the final aggregated disaster tables carries a present,
strictly positive metric (so any row with a non-positive or missing metric is
excluded), and the spec's scenario — a frequency row with a -1 count — yields
an empty aggregate. -/
theorem c7_nonpositive_excluded :
    (∀ (wf : List FreqWideRow) (lookup : List StateLookupRow),
      ∀ r ∈ DISASTER_FREQ_DF wf lookup, 0 < r.Frequency.getD 0) ∧
    (∀ (wc : List CostWideRow) (lookup : List StateLookupRow),
      ∀ r ∈ DISASTER_COST_DF wc lookup, 0 < r.Total_Cost_Millions.getD 0) ∧
    DISASTER_FREQ_DF c7wide c7lookup = [] := by
  refine ⟨?_, ?_, by with_unfolding_all rfl⟩
  · intro wf lookup r hr
    simp only [DISASTER_FREQ_DF] at hr
    rw [List.mem_filter] at hr
    obtain ⟨hr1, hfips⟩ := hr
    rw [List.mem_filter] at hr1
    obtain ⟨hmem, hpos⟩ := hr1
    cases hfr : r.Frequency with
    | none => rw [hfr] at hpos; simp at hpos
    | some v =>
      rw [hfr] at hpos
      simp only [decide_eq_true_eq] at hpos
      simpa [hfr] using hpos
  · intro wc lookup r hr
    simp only [DISASTER_COST_DF] at hr
    rw [List.mem_filter] at hr
    obtain ⟨hmem, hpos⟩ := hr
    cases hfr : r.Total_Cost_Millions with
    | none => rw [hfr] at hpos; simp at hpos
    | some v =>
      rw [hfr] at hpos
      simp only [decide_eq_true_eq] at hpos
      simpa [hfr] using hpos

/-- Witness for C7's quantified conjuncts at concrete tables with a positive
wildfire count and a positive comma-formatted cost. -/
theorem c7_nonpositive_excluded_witness :
    ((0 : ℚ) <
      (⟨2020, "VA", "wildfire", some 3, some "51"⟩ : FreqMergedRow).Frequency.getD 0) ∧
    ((0 : ℚ) <
      (⟨"VA", "wildfire", some 1234, some "51"⟩ : CostMergedRow).Total_Cost_Millions.getD 0) := by
  constructor
  · have h : DISASTER_FREQ_DF c7wideP c7lookup =
        [⟨2020, "VA", "wildfire", some 3, some "51"⟩] := by with_unfolding_all rfl
    exact c7_nonpositive_excluded.1 c7wideP c7lookup _
      (by rw [h]; exact List.mem_singleton.mpr rfl)
  · have h : DISASTER_COST_DF
        [⟨"VA", "nan", "nan", "nan", "nan", "nan", "1,234", "nan"⟩] c7lookup =
        [⟨"VA", "wildfire", some 1234, some "51"⟩] := by with_unfolding_all rfl
    exact c7_nonpositive_excluded.2.1
      [⟨"VA", "nan", "nan", "nan", "nan", "nan", "1,234", "nan"⟩] c7lookup _
      (by rw [h]; exact List.mem_singleton.mpr rfl)

/-! ## C9: the classifier is a deterministic function of the income column -/

/-- `pd.qcut` returns one code per input row. -/
theorem pd_qcut_length (xs : List (Option ℚ)) (q : ℕ) :
    (pd_qcut xs q).length = xs.length := by
  simp only [pd_qcut]
  split <;> simp

/-- Inversion returns one code per input code. -/
theorem invertCodes_length (c : List (Option ℕ)) :
    (invertCodes c).length = c.length := by
  unfold invertCodes
  split <;> simp

/-- Reading the class columns back off the zipped frame recovers the zipped
code lists. -/
theorem zipClasses_classes (rows : List MergedRow) :
    ∀ (c cn : List (Option ℕ)), c.length = rows.length → cn.length = rows.length →
      (zipClasses rows c cn).map (fun r => (r.income_class, r.income_class_num)) =
        c.zip cn := by
  induction rows with
  | nil =>
    intro c cn hc hcn
    rw [List.length_nil] at hc hcn
    rw [List.eq_nil_of_length_eq_zero hc, List.eq_nil_of_length_eq_zero hcn]
    simp [zipClasses]
  | cons r rs ih =>
    intro c cn hc hcn
    cases c with
    | nil => simp at hc
    | cons a cs =>
      cases cn with
      | nil => simp at hcn
      | cons b ns =>
        simp only [List.length_cons, Nat.succ.injEq] at hc hcn
        simp only [zipClasses, List.map_cons, List.zip_cons_cons]
        exact congrArg _ (ih cs ns hc hcn)

/-- C9: the classification stage is deterministic and depends only on the
income column: two runs on frames with equal income columns (in particular two
runs on the same unchanged frame) assign identical raw and inverted bucket
columns. -/
theorem c9_classifier_deterministic (rows rows' : List MergedRow)
    (out out' : List ClassifiedRow)
    (hin : rows.map (fun r => r.attr.Medium_Household_Income) =
      rows'.map (fun r => r.attr.Medium_Household_Income))
    (h : income_class_stage rows = .ok out)
    (h' : income_class_stage rows' = .ok out') :
    out.map (fun r => (r.income_class, r.income_class_num)) =
      out'.map (fun r => (r.income_class, r.income_class_num)) := by
  rw [income_class_stage_eq] at h h'
  obtain rfl := (Except.ok.injEq _ _).mp h
  obtain rfl := (Except.ok.injEq _ _).mp h'
  have l1 : (pd_qcut (rows.map (fun r => r.attr.Medium_Household_Income)) 9).length =
      rows.length := by rw [pd_qcut_length, List.length_map]
  have l2 : (invertCodes (pd_qcut (rows.map (fun r => r.attr.Medium_Household_Income)) 9)).length =
      rows.length := by rw [invertCodes_length, pd_qcut_length, List.length_map]
  have l3 : (pd_qcut (rows'.map (fun r => r.attr.Medium_Household_Income)) 9).length =
      rows'.length := by rw [pd_qcut_length, List.length_map]
  have l4 : (invertCodes (pd_qcut (rows'.map (fun r => r.attr.Medium_Household_Income)) 9)).length =
      rows'.length := by rw [invertCodes_length, pd_qcut_length, List.length_map]
  rw [zipClasses_classes rows _ _ l1 l2, zipClasses_classes rows' _ _ l3 l4, hin]

/-- The classification stage on a single-income frame: a lone value collapses
all ten edges, its searchsorted index equals the bin count, and the code —
hence the inverted code — is NaN. -/
theorem c9_single_row_eval :
    income_class_stage [mkTestRow (some 5)] =
      .ok [⟨mkTestRow (some 5), none, none⟩] := by
  have hbins : qcutBins [(5 : ℚ)] 9 = [5] := by with_unfolding_all rfl
  have hsort : List.insertionSort (· ≤ ·)
      ([some (5 : ℚ)].filterMap id) = [5] := by with_unfolding_all rfl
  have hcode : qcutCode [(5 : ℚ)] 5 = none := by with_unfolding_all rfl
  have hq : pd_qcut [some 5] 9 = [none] := by
    simp only [pd_qcut, hsort, hbins]
    norm_num [hcode]
  rw [income_class_stage_eq]
  have hmap : [mkTestRow (some 5)].map (fun r => r.attr.Medium_Household_Income) =
      [some 5] := rfl
  rw [hmap, hq]
  with_unfolding_all rfl

/-- Witness for C9: re-running the stage on the same one-row frame yields the
same bucket assignment. -/
theorem c9_classifier_deterministic_witness :
    ([⟨mkTestRow (some 5), none, none⟩] : List ClassifiedRow).map
        (fun r => (r.income_class, r.income_class_num)) =
      ([⟨mkTestRow (some 5), none, none⟩] : List ClassifiedRow).map
        (fun r => (r.income_class, r.income_class_num)) :=
  c9_classifier_deterministic [mkTestRow (some 5)] [mkTestRow (some 5)] _ _ rfl
    c9_single_row_eval c9_single_row_eval

/-! ## C8: currency-string cleaning is round-trip safe -/

/-- A decimal digit renders to a character that is not a separator, not a
sign, not a dot, is a digit, and decodes back to itself. -/
theorem digitChar_props (d : ℕ) (hd : d < 10) :
    Nat.digitChar d ≠ ',' ∧ Nat.digitChar d ≠ '.' ∧ Nat.digitChar d ≠ '-' ∧
      (Nat.digitChar d).isDigit = true ∧ ((Nat.digitChar d).toNat - 48 : ℕ) = d := by
  interval_cases d <;> exact ⟨by decide, by decide, by decide, by decide, by decide⟩

/-- Removing the commas from the comma-grouped digit stream recovers the
digit characters. -/
theorem commafy_filter (ds : List ℕ) :
    ∀ i : ℕ, (∀ d ∈ ds, d < 10) →
      (commafyLE ds i).filter (fun c => c ≠ ',') = ds.map Nat.digitChar := by
  induction ds with
  | nil => intro i _; rfl
  | cons d rest ih =>
    intro i hlt
    have hd := (digitChar_props d (hlt d (List.mem_cons_self _ _))).1
    have hrest := ih (i + 1) (fun d' hd' => hlt d' (List.mem_cons_of_mem _ hd'))
    simp only [commafyLE, List.filter_append, hrest, List.map_cons]
    split
    · simp [hd]
    · simp [hd]

/-- `splitDot` is the identity split on a dot-free string. -/
theorem splitDot_no_dot (cs : List Char) (h : ∀ c ∈ cs, c ≠ '.') :
    splitDot cs = (cs, none) := by
  induction cs with
  | nil => rfl
  | cons c rest ih =>
    have hc : c ≠ '.' := h c (List.mem_cons_self _ _)
    simp only [splitDot, if_neg hc, ih (fun c' hc' => h c' (List.mem_cons_of_mem _ hc'))]

/-- Folding the decimal-digit characters of a little-endian digit list (in
big-endian order) accumulates the number the digits denote. -/
theorem foldl_digits_aux (ds : List ℕ) :
    ∀ a : ℚ, (∀ d ∈ ds, d < 10) →
      List.foldl (fun x c => 10 * x + ((c.toNat - 48 : ℕ) : ℚ)) a
        ((ds.map Nat.digitChar).reverse) =
      a * 10 ^ ds.length + ((Nat.ofDigits 10 ds : ℕ) : ℚ) := by
  induction ds with
  | nil => intro a _; simp
  | cons d rest ih =>
    intro a hlt
    rw [List.map_cons, List.reverse_cons, List.foldl_append]
    rw [ih a (fun d' hd' => hlt d' (List.mem_cons_of_mem _ hd'))]
    simp only [List.foldl_cons, List.foldl_nil]
    rw [(digitChar_props d (hlt d (List.mem_cons_self _ _))).2.2.2.2, Nat.ofDigits_cons]
    push_cast
    simp only [List.length_cons, pow_succ]
    ring

/-- C8: the comma-strip-then-coerce cleaning of the cost column is round-trip
safe on well-formed inputs: cleaning the thousands-separated rendering of any
positive integer yields that integer. -/
theorem c8_currency_roundtrip (x : ℕ) (hx : 0 < x) :
    to_numeric (removeCommas (format_with_commas x)) = some (x : ℚ) := by
  have hlt : ∀ d ∈ Nat.digits 10 x, d < 10 :=
    fun d hd => Nat.digits_lt_base (by norm_num) hd
  have hne : Nat.digits 10 x ≠ [] := Nat.digits_ne_nil_iff_ne_zero.mpr hx.ne'
  have h1 : removeCommas (format_with_commas x) =
      ⟨((Nat.digits 10 x).map Nat.digitChar).reverse⟩ := by
    unfold removeCommas format_with_commas
    congr 1
    rw [show (String.mk ((commafyLE (Nat.digits 10 x) 0).reverse)).data =
        (commafyLE (Nat.digits 10 x) 0).reverse from rfl]
    rw [List.filter_reverse]
    exact congrArg List.reverse (commafy_filter (Nat.digits 10 x) 0 hlt)
  rw [h1]
  have hLne : ((Nat.digits 10 x).map Nat.digitChar).reverse ≠ [] := by
    simp [hne]
  obtain ⟨c, L', hL⟩ := List.exists_cons_of_ne_nil hLne
  have hall : ∀ ch ∈ ((Nat.digits 10 x).map Nat.digitChar).reverse,
      ch ≠ ',' ∧ ch ≠ '.' ∧ ch ≠ '-' ∧ ch.isDigit = true := by
    intro ch hch
    rw [List.mem_reverse, List.mem_map] at hch
    obtain ⟨d, hd, rfl⟩ := hch
    obtain ⟨p1, p2, p3, p4, -⟩ := digitChar_props d (hlt d hd)
    exact ⟨p1, p2, p3, p4⟩
  have hdall : ((Nat.digits 10 x).map Nat.digitChar).reverse.all Char.isDigit = true :=
    List.all_eq_true.mpr (fun ch hch => (hall ch hch).2.2.2)
  have hnodot : ∀ ch ∈ ((Nat.digits 10 x).map Nat.digitChar).reverse, ch ≠ '.' :=
    fun ch hch => (hall ch hch).2.1
  have hcdash : c ≠ '-' := by
    have := hall c (by rw [hL]; exact List.mem_cons_self _ _)
    exact this.2.2.1
  have hval : digitsVal (c :: L') = ((x : ℕ) : ℚ) := by
    rw [← hL]
    unfold digitsVal
    rw [foldl_digits_aux _ 0 hlt]
    simp [Nat.ofDigits_digits]
  rw [hL] at hnodot hdall
  have hneg : (((c :: L').head? = some '-') : Bool) = false := by
    simp [hcdash]
  rw [hL]
  simp only [to_numeric]
  simp only [hneg, Bool.false_eq_true, if_false, splitDot_no_dot (c :: L') hnodot,
    hdall, ne_eq, List.cons_ne_nil, not_false_iff, true_and, if_true, hval,
    Option.map_some]
  rfl

/-- Witness for C8 at x = 1234. -/
theorem c8_currency_roundtrip_witness :
    0 < 1234 ∧ to_numeric (removeCommas (format_with_commas 1234)) = some (1234 : ℚ) :=
  ⟨by norm_num, c8_currency_roundtrip 1234 (by norm_num)⟩

/-! ## C4: inversion correctness of the bucket indices -/

/-- Deduplication only keeps elements of the list. -/
theorem mem_dedupFirst (l : List ℚ) (b : ℚ) (hb : b ∈ dedupFirst l) : b ∈ l := by
  induction l with
  | nil => simpa [dedupFirst] using hb
  | cons x xs ih =>
    simp only [dedupFirst, List.mem_cons] at hb ⊢
    rcases hb with rfl | hb
    · exact Or.inl rfl
    · exact Or.inr (ih (List.mem_of_mem_filter hb))

/-- Bins are a sublist of the raw quantile edges. -/
theorem mem_qcutBins (v : List ℚ) (q : ℕ) (b : ℚ) (hb : b ∈ qcutBins v q) :
    b ∈ qcutEdges v q := by
  simp only [qcutBins] at hb
  split at hb
  · exact mem_dedupFirst _ _ hb
  · exact hb

/-- The edge list starts with the 0-quantile. -/
theorem qcutEdges_eq_cons (v : List ℚ) (q : ℕ) :
    qcutEdges v q =
      quantileIdx v 0 q :: (List.range q).map (fun i => quantileIdx v (i + 1) q) := by
  unfold qcutEdges
  rw [List.range_succ_eq_map, List.map_cons, List.map_map]
  rfl

/-- The bin list starts with the 0-quantile (deduplication keeps the head). -/
theorem qcutBins_cons (v : List ℚ) (q : ℕ) :
    ∃ bs, qcutBins v q = quantileIdx v 0 q :: bs := by
  have h := qcutEdges_eq_cons v q
  simp only [qcutBins]
  split
  · rw [h]
    exact ⟨_, rfl⟩
  · exact ⟨_, h⟩

/-- The 0-quantile of a population is its least value. -/
theorem quantileIdx_zero (v : List ℚ) (q : ℕ) : quantileIdx v 0 q = v.getD 0 0 := by
  unfold quantileIdx
  simp

/-- In a sorted list, `getD` with default 0 is monotone below the length. -/
theorem sorted_getD_le (v : List ℚ) (hs : List.Sorted (· ≤ ·) v) (i j : ℕ)
    (hij : i ≤ j) (hj : j < v.length) : v.getD i 0 ≤ v.getD j 0 := by
  have hi : i < v.length := Nat.lt_of_le_of_lt hij hj
  rw [List.getD_eq_getElem v 0 hi, List.getD_eq_getElem v 0 hj]
  rcases Nat.eq_or_lt_of_le hij with rfl | hlt
  · exact le_refl _
  · exact hs.rel_get_of_lt (show (⟨i, hi⟩ : Fin v.length) < ⟨j, hj⟩ from hlt)

/-- Every quantile of a sorted nonempty population is at least its minimum:
the interpolation adds a nonnegative fraction of a nonnegative gap to a value
at or above the minimum. -/
theorem quantileIdx_ge_head (v : List ℚ) (hs : List.Sorted (· ≤ ·) v)
    (hne : v ≠ []) (i q : ℕ) (hiq : i ≤ q) (hq : 0 < q) :
    v.getD 0 0 ≤ quantileIdx v i q := by
  unfold quantileIdx
  have hn : 0 < v.length := List.length_pos.mpr hne
  have hj : i * (v.length - 1) / q ≤ v.length - 1 := by
    calc i * (v.length - 1) / q ≤ q * (v.length - 1) / q :=
          Nat.div_le_div_right (Nat.mul_le_mul_right _ hiq)
    _ = v.length - 1 := Nat.mul_div_cancel_left _ hq
  have hjlt : i * (v.length - 1) / q < v.length :=
    Nat.lt_of_le_of_lt hj (Nat.sub_lt hn Nat.one_pos)
  have hlo : v.getD 0 0 ≤ v.getD (i * (v.length - 1) / q) 0 :=
    sorted_getD_le v hs 0 _ (Nat.zero_le _) hjlt
  have hhi : v.getD (i * (v.length - 1) / q) 0 ≤
      v.getD (i * (v.length - 1) / q + 1) (v.getD (i * (v.length - 1) / q) 0) := by
    rcases Nat.lt_or_ge (i * (v.length - 1) / q + 1) v.length with hlt | hge
    · rw [List.getD_eq_getElem _ _ hjlt, List.getD_eq_getElem _ _ hlt]
      exact hs.rel_get_of_lt
        (show (⟨_, hjlt⟩ : Fin v.length) < ⟨_, hlt⟩ from Nat.lt_succ_self _)
    · rw [List.getD_eq_default _ _ hge]
  have hfrac : (0 : ℚ) ≤ ((i * (v.length - 1) % q : ℕ) : ℚ) / (q : ℚ) := by positivity
  have hprod : (0 : ℚ) ≤ ((i * (v.length - 1) % q : ℕ) : ℚ) / (q : ℚ) *
      (v.getD (i * (v.length - 1) / q + 1) (v.getD (i * (v.length - 1) / q) 0) -
        v.getD (i * (v.length - 1) / q) 0) :=
    mul_nonneg hfrac (sub_nonneg.mpr hhi)
  linarith

/-- Monotonicity of the bucket code in the classified value: the searchsorted
index is monotone, and the `include_lowest` adjustment only moves the minimum
into the first kept bucket. -/
theorem qcutCode_mono (bins : List ℚ) (hne : bins ≠ [])
    (hmin : ∀ b ∈ bins, bins.headD 0 ≤ b) (x y : ℚ) (hxy : x ≤ y) (k1 k2 : ℕ)
    (h1 : qcutCode bins x = some k1) (h2 : qcutCode bins y = some k2) :
    k1 ≤ k2 := by
  have hheadmem : bins.headD 0 ∈ bins := by
    cases bins with
    | nil => exact absurd rfl hne
    | cons b bs => exact List.mem_cons_self _ _
  simp only [qcutCode] at h1 h2
  by_cases hx : x = bins.headD 0
  · rw [if_pos hx] at h1
    split at h1
    · exact absurd h1 (by simp)
    · injection h1 with h1
      omega
  · rw [if_neg hx] at h1
    by_cases hy : y = bins.headD 0
    · -- x ≤ head, x ≠ head: nothing lies strictly below x, so the raw index
      -- is 0 and the code would have been NaN — contradiction.
      have hxlt : x < bins.headD 0 := lt_of_le_of_ne (hy ▸ hxy) hx
      have hcount : bins.countP (fun b => decide (b < x)) = 0 := by
        rw [List.countP_eq_zero]
        intro b hb
        simp only [decide_eq_true_eq]
        exact not_lt.mpr (le_trans (le_of_lt hxlt) (hmin b hb))
      rw [hcount] at h1
      simp at h1
    · rw [if_neg hy] at h2
      have hcle : bins.countP (fun b => decide (b < x)) ≤
          bins.countP (fun b => decide (b < y)) := by
        apply List.countP_mono_left
        intro b hb hbx
        simp only [decide_eq_true_eq] at hbx ⊢
        exact lt_of_lt_of_le hbx hxy
      split at h1
      · exact absurd h1 (by simp)
      · split at h2
        · exact absurd h2 (by simp)
        · injection h1 with h1
          injection h2 with h2
          omega

/-- Reading one code off `pd.qcut`'s output: a non-NaN code comes from a
non-NaN value at the same row, with a nonempty sorted population. -/
theorem pd_qcut_some (xs : List (Option ℚ)) (q i k : ℕ)
    (h : (pd_qcut xs q).get? i = some (some k)) :
    ∃ x, xs.get? i = some (some x) ∧
      List.insertionSort (· ≤ ·) (xs.filterMap id) ≠ [] ∧
      qcutCode (qcutBins (List.insertionSort (· ≤ ·) (xs.filterMap id)) q) x =
        some k := by
  simp only [pd_qcut] at h
  split at h
  · rw [List.get?_map] at h
    cases hxi : xs.get? i <;> rw [hxi] at h <;> simp at h
  · rename_i hvals
    rw [List.get?_map] at h
    cases hxi : xs.get? i with
    | none => rw [hxi] at h; simp at h
    | some o =>
      rw [hxi] at h
      cases o with
      | none => simp at h
      | some x =>
        refine ⟨x, rfl, ?_, by simpa using h⟩
        intro hnil
        rw [hnil] at hvals
        simp at hvals

/-- Reading one inverted code off `invertCodes`: a non-NaN inverted code is
the column maximum minus the raw code of the same row. -/
theorem invertCodes_get (c : List (Option ℕ)) (i M : ℕ)
    (h : (invertCodes c).get? i = some (some M)) :
    ∃ mc k, seriesMaxNat (c.filterMap id) = some mc ∧ c.get? i = some (some k) ∧
      M = mc - k := by
  unfold invertCodes at h
  split at h
  · rw [List.get?_map] at h
    cases hc : c.get? i <;> rw [hc] at h <;> simp at h
  · rename_i mc hmc
    rw [List.get?_map] at h
    cases hc : c.get? i with
    | none => rw [hc] at h; simp at h
    | some o =>
      rw [hc] at h
      cases o with
      | none => simp at h
      | some k =>
        refine ⟨mc, k, hmc, rfl, ?_⟩
        have h2 : mc - k = M := by simpa using h
        omega

/-- `seriesMaxNat` is an upper bound of the list. -/
theorem seriesMaxNat_ge (l : List ℕ) :
    ∀ m, seriesMaxNat l = some m → ∀ k ∈ l, k ≤ m := by
  induction l with
  | nil => intro m hm; simp [seriesMaxNat] at hm
  | cons k0 ks ih =>
    intro m hm k hk
    simp only [seriesMaxNat, Option.some.injEq] at hm
    rcases List.mem_cons.mp hk with rfl | hk2
    · cases hks : seriesMaxNat ks with
      | none => rw [hks] at hm; exact hm.le
      | some m2 => rw [hks] at hm; exact hm ▸ le_max_left _ _
    · cases hks : seriesMaxNat ks with
      | none =>
        cases ks with
        | nil => simp at hk2
        | cons a l2 => simp [seriesMaxNat] at hks
      | some m2 =>
        rw [hks] at hm
        exact le_trans (ih m2 hks k hk2) (hm ▸ le_max_right _ _)

/-- The index view of `zipClasses`. -/
theorem zipClasses_get (rows : List MergedRow) :
    ∀ (c cn : List (Option ℕ)) (i : ℕ) (x : ClassifiedRow),
      (zipClasses rows c cn).get? i = some x →
      rows.get? i = some x.row ∧ c.get? i = some x.income_class ∧
        cn.get? i = some x.income_class_num := by
  induction rows with
  | nil => intro c cn i x h; cases c <;> cases cn <;> simp [zipClasses] at h
  | cons r rs ih =>
    intro c cn i x h
    cases c with
    | nil => simp [zipClasses] at h
    | cons a cs =>
      cases cn with
      | nil => simp [zipClasses] at h
      | cons b ns =>
        cases i with
        | zero =>
          simp only [zipClasses, List.get?_cons_zero, Option.some.injEq] at h
          subst h
          exact ⟨rfl, rfl, rfl⟩
        | succ n =>
          simp only [zipClasses, List.get?_cons_succ] at h ⊢
          exact ih cs ns n x h

/-- Sorting the degenerate population of nine zeros and a one. -/
theorem c4_sort :
    List.insertionSort (· ≤ ·)
      ([some (0 : ℚ), some 0, some 0, some 0, some 0, some 0, some 0, some 0,
        some 0, some 1].filterMap id) =
      [0, 0, 0, 0, 0, 0, 0, 0, 0, 1] := by with_unfolding_all rfl

/-- On nine zeros and a one the ten edges collapse to the two values. -/
theorem c4_bins : qcutBins [(0 : ℚ), 0, 0, 0, 0, 0, 0, 0, 0, 1] 9 = [0, 1] := by
  with_unfolding_all rfl

/-- With the collapsed bins both population values land in bucket 0. -/
theorem c4_code0 : qcutCode [(0 : ℚ), 1] 0 = some 0 := by with_unfolding_all rfl

/-- The maximal value's searchsorted index among the two collapsed edges is 1,
which is also bucket 0. -/
theorem c4_code1 : qcutCode [(0 : ℚ), 1] 1 = some 0 := by with_unfolding_all rfl

/-- `pd.qcut` over the degenerate population: one collapsed bucket. -/
theorem c4_qcut :
    pd_qcut [some 0, some 0, some 0, some 0, some 0, some 0, some 0, some 0,
      some 0, some 1] 9 =
    [some 0, some 0, some 0, some 0, some 0, some 0, some 0, some 0,
      some 0, some 0] := by
  simp only [pd_qcut, c4_sort, c4_bins]
  norm_num [c4_code0, c4_code1]

/-- The classification stage on the degenerate frame. -/
theorem c4_stage : income_class_stage c4rows = .ok c4out := by
  rw [income_class_stage_eq]
  have hmap : c4rows.map (fun r => r.attr.Medium_Household_Income) =
      [some 0, some 0, some 0, some 0, some 0, some 0, some 0, some 0,
        some 0, some 1] := rfl
  rw [hmap, c4_qcut]
  with_unfolding_all rfl

/-- Every row of the degenerate output carries inverted bucket 0. -/
theorem c4out_all_zero : ∀ r ∈ c4out, r.income_class_num = some 0 := by
  intro r hr
  simp only [c4out, List.mem_cons, List.not_mem_nil, or_false] at hr
  rcases hr with rfl | rfl | rfl | rfl | rfl | rfl | rfl | rfl | rfl | rfl <;> rfl

/-- C4 counterexample: on a population of nine records at income 0 and one at
income 1 every record collapses into a single bucket, so a bucket-0 record of
value 0 and a largest-inverted-bucket record of value 1 violate the claimed
inequality — bucket 0 does not always denote the highest-value bucket when the
effective bucket count collapses to one. -/
theorem c4_counterexample :
    income_class_stage c4rows = .ok c4out ∧ ¬ bucketInversionOK c4out := by
  refine ⟨c4_stage, fun h => ?_⟩
  have h1 : (⟨mkTestRow (some 0), some 0, some 0⟩ : ClassifiedRow) ∈ c4out := by
    simp [c4out]
  have h2 : (⟨mkTestRow (some 1), some 0, some 0⟩ : ClassifiedRow) ∈ c4out := by
    simp [c4out]
  have htop : hasTopBucketNum c4out ⟨mkTestRow (some 1), some 0, some 0⟩ 0 := by
    refine ⟨rfl, ?_⟩
    intro r' hr' k hk
    rw [c4out_all_zero r' hr'] at hk
    injection hk with hk
    omega
  have := h _ h1 _ h2 0 0 1 rfl htop rfl rfl
  norm_num at this

/-- C4 amended: bucket inversion is correct whenever more than one inverted
bucket index is attained: for every pair of records r1 in inverted bucket 0
and r2 in the largest attained inverted bucket M, if M is positive then the
classification value of r1 is at least that of r2.  (The counterexample shows
the unqualified claim fails when the table collapses into a single bucket, in
which case r1 and r2 both sit in bucket 0 and may carry any values.) -/
theorem c4_inversion_correct (rows : List MergedRow) (out : List ClassifiedRow)
    (hstage : income_class_stage rows = .ok out) :
    ∀ r1 ∈ out, ∀ r2 ∈ out, ∀ (M : ℕ) (v1 v2 : ℚ),
      r1.income_class_num = some 0 → hasTopBucketNum out r2 M → 0 < M →
      r1.row.attr.Medium_Household_Income = some v1 →
      r2.row.attr.Medium_Household_Income = some v2 →
      v2 ≤ v1 := by
  intro r1 h1 r2 h2 M v1 v2 hn1 htop hM hv1 hv2
  rw [income_class_stage_eq] at hstage
  obtain rfl := (Except.ok.injEq _ _).mp hstage
  obtain ⟨i1, hg1⟩ := List.mem_iff_get?.mp h1
  obtain ⟨i2, hg2⟩ := List.mem_iff_get?.mp h2
  obtain ⟨hrow1, hc1, hcn1⟩ := zipClasses_get rows _ _ i1 r1 hg1
  obtain ⟨hrow2, hc2, hcn2⟩ := zipClasses_get rows _ _ i2 r2 hg2
  rw [hn1] at hcn1
  rw [htop.1] at hcn2
  obtain ⟨mc, k1, hmax, hck1, hk1⟩ := invertCodes_get _ i1 0 hcn1
  obtain ⟨mc2, k2, hmax2, hck2, hk2⟩ := invertCodes_get _ i2 M hcn2
  rw [hmax] at hmax2
  injection hmax2 with hmax2
  subst hmax2
  have hk1mem : k1 ∈ (pd_qcut (rows.map (fun r => r.attr.Medium_Household_Income)) 9).filterMap id :=
    List.mem_filterMap.mpr ⟨some k1, List.get?_mem hck1, rfl⟩
  have hk1le : k1 ≤ mc := seriesMaxNat_ge _ mc hmax k1 hk1mem
  have hk1eq : k1 = mc := by omega
  have hk2lt : k2 < mc := by omega
  obtain ⟨x1, hxi1, hvne, hcode1⟩ := pd_qcut_some _ 9 i1 k1 hck1
  obtain ⟨x2, hxi2, -, hcode2⟩ := pd_qcut_some _ 9 i2 k2 hck2
  have hx1 : x1 = v1 := by
    have hx : (rows.map (fun r => r.attr.Medium_Household_Income)).get? i1 =
        some (r1.row.attr.Medium_Household_Income) := by
      rw [List.get?_map, hrow1]
      rfl
    rw [hv1, hxi1] at hx
    injection hx with hx
    injection hx
  have hx2 : x2 = v2 := by
    have hx : (rows.map (fun r => r.attr.Medium_Household_Income)).get? i2 =
        some (r2.row.attr.Medium_Household_Income) := by
      rw [List.get?_map, hrow2]
      rfl
    rw [hv2, hxi2] at hx
    injection hx with hx
    injection hx
  rw [hx1] at hcode1
  rw [hx2] at hcode2
  by_contra hlt
  push_neg at hlt
  have hsorted : List.Sorted (· ≤ ·)
      (List.insertionSort (· ≤ ·)
        ((rows.map (fun r => r.attr.Medium_Household_Income)).filterMap id)) :=
    List.sorted_insertionSort _ _
  obtain ⟨bs, hbs⟩ := qcutBins_cons
    (List.insertionSort (· ≤ ·)
      ((rows.map (fun r => r.attr.Medium_Household_Income)).filterMap id)) 9
  have hne_bins : qcutBins
      (List.insertionSort (· ≤ ·)
        ((rows.map (fun r => r.attr.Medium_Household_Income)).filterMap id)) 9 ≠ [] := by
    rw [hbs]
    exact List.cons_ne_nil _ _
  have hmin : ∀ b ∈ qcutBins
      (List.insertionSort (· ≤ ·)
        ((rows.map (fun r => r.attr.Medium_Household_Income)).filterMap id)) 9,
      (qcutBins (List.insertionSort (· ≤ ·)
        ((rows.map (fun r => r.attr.Medium_Household_Income)).filterMap id)) 9).headD 0 ≤ b := by
    intro b hb
    rw [hbs]
    simp only [List.headD_cons]
    rw [quantileIdx_zero]
    have hbE := mem_qcutBins _ 9 b hb
    unfold qcutEdges at hbE
    rw [List.mem_map] at hbE
    obtain ⟨j, hjrange, rfl⟩ := hbE
    exact quantileIdx_ge_head _ hsorted hvne j 9
      (by have := List.mem_range.mp hjrange; omega) (by norm_num)
  have hmono := qcutCode_mono _ hne_bins hmin v1 v2 (le_of_lt hlt) k1 k2 hcode1 hcode2
  omega

/-- Witness for the amended C4 on the two-income scenario: the record in
inverted bucket 0 (income 200000) dominates the record in the largest
inverted bucket 8 (income 10000). -/
theorem c4_inversion_correct_witness : (10000 : ℚ) ≤ 200000 := by
  have h1 : (⟨c6mergedC, some 8, some 0⟩ : ClassifiedRow) ∈ c6out := by
    simp [c6out]
  have h2 : (⟨c6mergedA, some 0, some 8⟩ : ClassifiedRow) ∈ c6out := by
    simp [c6out]
  have htop : hasTopBucketNum c6out ⟨c6mergedA, some 0, some 8⟩ 8 := by
    refine ⟨rfl, ?_⟩
    intro r' hr' k hk
    simp only [c6out, List.mem_cons, List.not_mem_nil, or_false] at hr'
    rcases hr' with rfl | rfl <;> (injection hk with hk; omega)
  exact c4_inversion_correct [c6mergedA, c6mergedC] c6out c6_stage
    _ h1 _ h2 8 200000 10000 rfl htop (by norm_num) rfl rfl

end CensusApp

